import Mathlib

/-!
Verification of the SPIR-V byte-to-literal transcoder in
`src/app/convert_spv.py`.

The program reads a binary file into a byte sequence, then writes, for each
byte `byte` at zero-based index `i`, the text `'\n    '` when `i % 12 == 0`
followed by the token produced by the Python format string `f'0x{byte:02x}, '`.
The command-line entry point checks that exactly two positional arguments were
given, otherwise prints a usage line and exits with status 1.

The embedding below models the byte sequence as `List Nat` (each element a
byte value below 256), the emitted text as `String`, and the entry point as a
pure function over an abstract read-only filesystem
(`String → Option (List Nat)`) together with the previous content of the
destination file.
-/

set_option maxHeartbeats 1000000
set_option maxRecDepth 100000

namespace ConvertSpv

/-- Lowercase hexadecimal digit character for a value below 16, as produced
by Python's `x` format conversion: `0`–`9` then `a`–`f`. -/
def hexDigit (n : Nat) : Char :=
  if n < 10 then Char.ofNat (48 + n) else Char.ofNat (97 + (n - 10))

/-- Hexadecimal digits of `n` (most significant first), computed with
structural fuel; `natToHexChars` supplies enough fuel to finish. -/
def natToHexAux : Nat → Nat → List Char
  | 0, _ => []
  | fuel + 1, n =>
      if n < 16 then [hexDigit n]
      else natToHexAux fuel (n / 16) ++ [hexDigit (n % 16)]

/-- All hexadecimal digits of `n`, lowercase, most significant first;
`0` renders as the single digit `0`. -/
def natToHexChars (n : Nat) : List Char := natToHexAux (n + 1) n

/-- Python `02x` format conversion: lowercase hexadecimal, zero-padded on the
left to a minimum width of 2. -/
def format02x (n : Nat) : String :=
  String.mk (List.replicate (2 - (natToHexChars n).length) '0' ++ natToHexChars n)

/-- Token emitted for one byte, from the source's `f'0x{byte:02x}, '`. -/
def byteToken (b : Nat) : String := "0x" ++ format02x b ++ ", "

/-- Loop body of `convert_spv_to_inl`: for the byte at zero-based index `i`
the loop first writes a newline and four spaces when `i % 12 == 0`, then the
byte's token, then continues with the rest at index `i + 1`. -/
def convertAux : Nat → List Nat → String
  | _, [] => ""
  | i, b :: rest =>
      (if i % 12 = 0 then "\n    " else "") ++ byteToken b ++ convertAux (i + 1) rest

/-- Complete text written to the destination file for input bytes `data`:
the enumerate loop of the source started at index 0. -/
def convert_spv_to_inl (data : List Nat) : String := convertAux 0 data

/-- Concatenation of a list of strings, in order. -/
def strConcat : List String → String
  | [] => ""
  | s :: rest => s ++ strConcat rest

/-- Token shape stated by the spec: `0x`, the two lowercase hexadecimal
digits of the byte value (high digit first, zero-padded), a comma and a
single space. -/
def specToken (v : Nat) : String :=
  String.mk ['0', 'x', hexDigit (v / 16), hexDigit (v % 16), ',', ' ']

/-- Character is a lowercase hexadecimal digit: `0`–`9` or `a`–`f`. -/
def isLowerHexDigit (c : Char) : Bool :=
  (48 ≤ c.toNat && c.toNat ≤ 57) || (97 ≤ c.toNat && c.toNat ≤ 102)

/-- Separator characters of the output format: newline, space, comma. -/
def isSep (c : Char) : Bool := c == '\n' || c == ' ' || c == ','

/-- Numeric value of a lowercase hexadecimal digit character, if any. -/
def hexVal (c : Char) : Option Nat :=
  if 48 ≤ c.toNat ∧ c.toNat ≤ 57 then some (c.toNat - 48)
  else if 97 ≤ c.toNat ∧ c.toNat ≤ 102 then some (c.toNat - 87)
  else none

/-- Word splitter: breaks a character list at separator characters,
dropping the separators and returning the maximal non-separator runs. -/
def splitAux (acc : List Char) : List Char → List (List Char)
  | [] => if acc.isEmpty then [] else [acc.reverse]
  | c :: rest =>
      if isSep c then
        if acc.isEmpty then splitAux [] rest
        else acc.reverse :: splitAux [] rest
      else splitAux (c :: acc) rest

/-- Parse one token: `0x` followed by at least one hexadecimal digit,
read most significant first. -/
def parseHexToken (cs : List Char) : Option Nat :=
  match cs with
  | '0' :: 'x' :: ds =>
      if ds.isEmpty then none
      else ds.foldl (fun acc c =>
        match acc, hexVal c with
        | some a, some v => some (16 * a + v)
        | _, _ => none) (some 0)
  | _ => none

/-- Round-trip parser of the spec: strip newlines, indentation, commas and
spaces, then convert every remaining `0x`-token back to a byte value. -/
def parseTokens (s : String) : List Nat :=
  (splitAux [] s.data).filterMap parseHexToken

/-- Observable outcome of one program run: the lines printed to standard
output, the process exit status, and the content of the destination file
after the run (`none` when the file does not exist). -/
structure MainResult where
  out : List String
  exitCode : Nat
  dest : Option String
deriving DecidableEq

/-- The `__main__` block of the source: with `argv` the full argument vector
(program name first), `readF` the readable files, and `destPrev` the prior
content of the destination file.  When `len(sys.argv) != 3` it prints the
usage line and exits with status 1 before any file access; otherwise it runs
`convert_spv_to_inl`, which reads the whole source file and only then opens
the destination with mode `w` (create or truncate) and writes the rendered
text; an unreadable source raises, terminating with status 1 with the
destination untouched.  On success it prints the confirmation line and
returns status 0. -/
def convertMain (argv : List String) (readF : String → Option (List Nat))
    (destPrev : Option String) : MainResult :=
  match argv with
  | prog :: args =>
      if args.length = 2 then
        match readF (args.getD 0 "") with
        | some data =>
            { out := ["Converted " ++ args.getD 0 "" ++ " to " ++ args.getD 1 ""],
              exitCode := 0,
              dest := some (convert_spv_to_inl data) }
        | none => { out := [], exitCode := 1, dest := destPrev }
      else
        { out := ["Usage: " ++ prog ++ " <input.spv> <output.inl>"],
          exitCode := 1, dest := destPrev }
  | [] => { out := [], exitCode := 1, dest := destPrev }


theorem byteToken_eq_specToken : ∀ b < 256, byteToken b = specToken b := by decide

theorem isSep_hexDigit : ∀ n < 16, isSep (hexDigit n) = false := by decide

theorem parseHexToken_digits :
    ∀ b < 256, parseHexToken ['0', 'x', hexDigit (b / 16), hexDigit (b % 16)] = some b := by
  decide

theorem count_nl_byteToken : ∀ b < 256, (byteToken b).data.count '\n' = 0 := by decide

theorem count_x_byteToken : ∀ b < 256, (byteToken b).data.count 'x' = 1 := by decide

theorem convertAux_enum_byte (data : List Nat) : ∀ i,
    convertAux i data = strConcat ((data.enumFrom i).map fun p =>
      (if p.1 % 12 = 0 then "\n    " else "") ++ byteToken p.2) := by
  induction data with
  | nil => intro i; rfl
  | cons b rest ih =>
      intro i
      simp only [convertAux, List.enumFrom, List.map, strConcat]
      rw [ih (i + 1), String.append_assoc]

theorem convertAux_enum (data : List Nat) : ∀ i, (∀ b ∈ data, b < 256) →
    convertAux i data = strConcat ((data.enumFrom i).map fun p =>
      (if p.1 % 12 = 0 then "\n    " else "") ++ specToken p.2) := by
  induction data with
  | nil => intro i _; rfl
  | cons b rest ih =>
      intro i h
      have hb : b < 256 := h b (List.mem_cons_self b rest)
      have hr : ∀ x ∈ rest, x < 256 := fun x hx => h x (List.mem_cons_of_mem _ hx)
      simp only [convertAux, List.enumFrom, List.map, strConcat]
      rw [byteToken_eq_specToken b hb, ih (i + 1) hr, String.append_assoc]

theorem count_nl_convertAux (data : List Nat) : ∀ i, (∀ b ∈ data, b < 256) →
    (convertAux i data).data.count '\n'
      = (data.enumFrom i).countP (fun p => p.1 % 12 == 0) := by
  induction data with
  | nil => intro i _; rfl
  | cons b rest ih =>
      intro i h
      have hb : b < 256 := h b (List.mem_cons_self b rest)
      have hr : ∀ x ∈ rest, x < 256 := fun x hx => h x (List.mem_cons_of_mem _ hx)
      simp only [convertAux, List.enumFrom, List.countP_cons]
      rw [String.data_append _ _, String.data_append _ _, List.count_append,
        List.count_append, count_nl_byteToken b hb, ih (i + 1) hr]
      by_cases hi : i % 12 = 0
      · simp [hi, Nat.add_comm]
      · simp [hi, Nat.add_comm]

theorem count_x_convertAux (data : List Nat) : ∀ i, (∀ b ∈ data, b < 256) →
    (convertAux i data).data.count 'x' = data.length := by
  induction data with
  | nil => intro i _; rfl
  | cons b rest ih =>
      intro i h
      have hb : b < 256 := h b (List.mem_cons_self b rest)
      have hr : ∀ x ∈ rest, x < 256 := fun x hx => h x (List.mem_cons_of_mem _ hx)
      simp only [convertAux, List.length_cons]
      rw [String.data_append _ _, String.data_append _ _, List.count_append,
        List.count_append, count_x_byteToken b hb, ih (i + 1) hr]
      by_cases hi : i % 12 = 0
      · simp [hi, Nat.add_comm]
      · simp [hi, Nat.add_comm]

theorem convertAux_getLast (data : List Nat) : ∀ i l, data.getLast? = some l →
    ∃ s, convertAux i data = s ++ byteToken l := by
  induction data with
  | nil => intro i l h; simp at h
  | cons b rest ih =>
      intro i l h
      cases rest with
      | nil =>
          have hb : b = l := by simpa using h
          subst hb
          refine ⟨(if i % 12 = 0 then "\n    " else ""), ?_⟩
          simp only [convertAux]
          rw [String.append_empty]
      | cons c cs =>
          have h' : (c :: cs).getLast? = some l := by
            rw [← List.getLast?_cons_cons]; exact h
          obtain ⟨s, hs⟩ := ih (i + 1) l h'
          refine ⟨(if i % 12 = 0 then "\n    " else "") ++ byteToken b ++ s, ?_⟩
          rw [show convertAux i (b :: c :: cs)
                = (if i % 12 = 0 then "\n    " else "") ++ byteToken b
                  ++ convertAux (i + 1) (c :: cs) from rfl, hs,
            ← String.append_assoc]



theorem splitAux_sep_nil (c : Char) (cs : List Char) (h : isSep c = true) :
    splitAux [] (c :: cs) = splitAux [] cs := by
  simp [splitAux, h]

theorem splitAux_sep_flush (a : Char) (acc : List Char) (c : Char) (cs : List Char)
    (h : isSep c = true) :
    splitAux (a :: acc) (c :: cs) = (a :: acc).reverse :: splitAux [] cs := by
  simp [splitAux, h]

theorem splitAux_nonsep (acc : List Char) (c : Char) (cs : List Char)
    (h : isSep c = false) :
    splitAux acc (c :: cs) = splitAux (c :: acc) cs := by
  simp [splitAux, h]

theorem splitAux_nlIndent (cs : List Char) :
    splitAux [] ('\n' :: ' ' :: ' ' :: ' ' :: ' ' :: cs) = splitAux [] cs := by
  rw [splitAux_sep_nil '\n' _ rfl, splitAux_sep_nil ' ' _ rfl, splitAux_sep_nil ' ' _ rfl,
    splitAux_sep_nil ' ' _ rfl, splitAux_sep_nil ' ' _ rfl]

theorem splitAux_chunk (b : Nat) (hb : b < 256) (cs : List Char) :
    splitAux [] ((specToken b).data ++ cs)
      = ['0', 'x', hexDigit (b / 16), hexDigit (b % 16)] :: splitAux [] cs := by
  have h1 : isSep (hexDigit (b / 16)) = false := isSep_hexDigit _ (by omega)
  have h2 : isSep (hexDigit (b % 16)) = false := isSep_hexDigit _ (by omega)
  show splitAux []
      ('0' :: 'x' :: hexDigit (b / 16) :: hexDigit (b % 16) :: ',' :: ' ' :: cs) = _
  rw [splitAux_nonsep [] '0' _ rfl, splitAux_nonsep ['0'] 'x' _ rfl,
    splitAux_nonsep ['x', '0'] _ _ h1, splitAux_nonsep [hexDigit (b / 16), 'x', '0'] _ _ h2,
    splitAux_sep_flush _ _ ',' _ rfl, splitAux_sep_nil ' ' _ rfl]
  rfl

theorem splitAux_convertAux (data : List Nat) : ∀ i, (∀ b ∈ data, b < 256) →
    splitAux [] (convertAux i data).data
      = data.map (fun b => ['0', 'x', hexDigit (b / 16), hexDigit (b % 16)]) := by
  induction data with
  | nil => intro i _; rfl
  | cons b rest ih =>
      intro i h
      have hb : b < 256 := h b (List.mem_cons_self b rest)
      have hr : ∀ x ∈ rest, x < 256 := fun x hx => h x (List.mem_cons_of_mem _ hx)
      have hdat : (convertAux i (b :: rest)).data
          = (if i % 12 = 0 then "\n    " else "").data
            ++ ((specToken b).data ++ (convertAux (i + 1) rest).data) := by
        rw [show convertAux i (b :: rest)
              = (if i % 12 = 0 then "\n    " else "") ++ byteToken b
                ++ convertAux (i + 1) rest from rfl,
          byteToken_eq_specToken b hb, String.data_append _ _, String.data_append _ _,
          List.append_assoc]
      rw [hdat]
      by_cases hi : i % 12 = 0
      · rw [if_pos hi]
        rw [show ("\n    " : String).data ++ ((specToken b).data ++ (convertAux (i + 1) rest).data)
              = '\n' :: ' ' :: ' ' :: ' ' :: ' '
                :: ((specToken b).data ++ (convertAux (i + 1) rest).data) from rfl]
        rw [splitAux_nlIndent, splitAux_chunk b hb, ih (i + 1) hr]
        rfl
      · rw [if_neg hi]
        rw [show ("" : String).data ++ ((specToken b).data ++ (convertAux (i + 1) rest).data)
              = (specToken b).data ++ (convertAux (i + 1) rest).data from rfl]
        rw [splitAux_chunk b hb, ih (i + 1) hr]
        rfl

theorem filterMap_digits (data : List Nat) (h : ∀ b ∈ data, b < 256) :
    data.filterMap (fun b => parseHexToken ['0', 'x', hexDigit (b / 16), hexDigit (b % 16)])
      = data := by
  induction data with
  | nil => rfl
  | cons b rest ih =>
      have hb : b < 256 := h b (List.mem_cons_self b rest)
      have hr : ∀ x ∈ rest, x < 256 := fun x hx => h x (List.mem_cons_of_mem _ hx)
      rw [List.filterMap_cons, parseHexToken_digits b hb, ih hr]

theorem parseTokens_convertAux (data : List Nat) (h : ∀ b ∈ data, b < 256) :
    parseTokens (convert_spv_to_inl data) = data := by
  rw [show parseTokens (convert_spv_to_inl data)
        = (splitAux [] (convertAux 0 data).data).filterMap parseHexToken from rfl,
    splitAux_convertAux data 0 h, List.filterMap_map]
  exact filterMap_digits data h



/-- C1: for every input byte sequence the transcoder output consists of one
token per input byte in file order, the token for byte value `v` being `0x`
followed by exactly two lowercase zero-padded hexadecimal digits of `v`
followed by a comma and a single space. -/
theorem claim_c1_token_per_byte (data : List Nat) (h : ∀ b ∈ data, b < 256) :
    convert_spv_to_inl data
        = strConcat (data.enum.map fun p =>
            (if p.1 % 12 = 0 then "\n    " else "") ++ specToken p.2)
      ∧ (convert_spv_to_inl data).data.count 'x' = data.length
      ∧ ∀ b < 256,
          specToken b = "0x" ++ String.mk [hexDigit (b / 16), hexDigit (b % 16)] ++ ", "
            ∧ isLowerHexDigit (hexDigit (b / 16)) = true
            ∧ isLowerHexDigit (hexDigit (b % 16)) = true
            ∧ hexVal (hexDigit (b / 16)) = some (b / 16)
            ∧ hexVal (hexDigit (b % 16)) = some (b % 16) :=
  ⟨convertAux_enum data 0 h, count_x_convertAux data 0 h, by decide⟩

/-- Witness for C1 at the one-byte input `[255]`; byte value 255 renders as
the token `0xff, `. -/
theorem claim_c1_witness :
    (∀ b ∈ [(255 : Nat)], b < 256)
      ∧ (convert_spv_to_inl [255]
            = strConcat (([(255 : Nat)].enum).map fun p =>
                (if p.1 % 12 = 0 then "\n    " else "") ++ specToken p.2)
          ∧ (convert_spv_to_inl [255]).data.count 'x' = [(255 : Nat)].length
          ∧ ∀ b < 256,
              specToken b = "0x" ++ String.mk [hexDigit (b / 16), hexDigit (b % 16)] ++ ", "
                ∧ isLowerHexDigit (hexDigit (b / 16)) = true
                ∧ isLowerHexDigit (hexDigit (b % 16)) = true
                ∧ hexVal (hexDigit (b / 16)) = some (b / 16)
                ∧ hexVal (hexDigit (b % 16)) = some (b % 16))
      ∧ byteToken 255 = "0xff, " :=
  ⟨by decide, claim_c1_token_per_byte [255] (by decide), by decide⟩

/-- C2: a newline followed by four spaces is written immediately before the
token at zero-based index `i` exactly when `i % 12 = 0`, and nothing is
appended after the last token. -/
theorem claim_c2_newline_rule (data : List Nat) (h : ∀ b ∈ data, b < 256) :
    convert_spv_to_inl data
        = strConcat (data.enum.map fun p =>
            (if p.1 % 12 = 0 then "\n    " else "") ++ byteToken p.2)
      ∧ (convert_spv_to_inl data).data.count '\n'
          = data.enum.countP (fun p => p.1 % 12 == 0)
      ∧ ∀ l, data.getLast? = some l → ∃ s, convert_spv_to_inl data = s ++ byteToken l :=
  ⟨convertAux_enum_byte data 0, count_nl_convertAux data 0 h,
    fun l hl => convertAux_getLast data 0 l hl⟩

/-- Witness for C2 at the 13-byte input `[0, 1, ..., 12]`: exactly two
newline-indent insertions, before token 0 and before token 12. -/
theorem claim_c2_witness :
    (∀ b ∈ [0, 1, 2, 3, 4, 5, 6, 7, 8, 9, 10, 11, (12 : Nat)], b < 256)
      ∧ (convert_spv_to_inl [0, 1, 2, 3, 4, 5, 6, 7, 8, 9, 10, 11, 12]
            = strConcat (([0, 1, 2, 3, 4, 5, 6, 7, 8, 9, 10, 11, (12 : Nat)].enum).map fun p =>
                (if p.1 % 12 = 0 then "\n    " else "") ++ byteToken p.2)
          ∧ (convert_spv_to_inl [0, 1, 2, 3, 4, 5, 6, 7, 8, 9, 10, 11, 12]).data.count '\n'
              = ([0, 1, 2, 3, 4, 5, 6, 7, 8, 9, 10, 11, (12 : Nat)].enum.countP
                  fun p => p.1 % 12 == 0)
          ∧ ∀ l, [0, 1, 2, 3, 4, 5, 6, 7, 8, 9, 10, 11, (12 : Nat)].getLast? = some l →
              ∃ s, convert_spv_to_inl [0, 1, 2, 3, 4, 5, 6, 7, 8, 9, 10, 11, 12]
                = s ++ byteToken l)
      ∧ (convert_spv_to_inl [0, 1, 2, 3, 4, 5, 6, 7, 8, 9, 10, 11, 12]).data.count '\n' = 2 :=
  ⟨by decide, claim_c2_newline_rule [0, 1, 2, 3, 4, 5, 6, 7, 8, 9, 10, 11, 12] (by decide),
    by decide⟩

/-- C3: parsing the hexadecimal tokens back out of the transcoder output
(stripping newlines, indentation, commas and spaces) reconstructs exactly
the input byte sequence. -/
theorem claim_c3_roundtrip (data : List Nat) (h : ∀ b ∈ data, b < 256) :
    parseTokens (convert_spv_to_inl data) = data :=
  parseTokens_convertAux data h

/-- Witness for C3 at the input `[0, 255, 16]`. -/
theorem claim_c3_witness :
    (∀ b ∈ [0, 255, (16 : Nat)], b < 256)
      ∧ parseTokens (convert_spv_to_inl [0, 255, 16]) = [0, 255, 16] :=
  ⟨by decide, claim_c3_roundtrip [0, 255, 16] (by decide)⟩

/-- C4: with an argument count other than two positional arguments the
program prints the usage line naming the program, exits with status 1, and
leaves the destination file untouched. -/
theorem claim_c4_usage_error (prog : String) (args : List String)
    (readF : String → Option (List Nat)) (destPrev : Option String)
    (h : args.length ≠ 2) :
    convertMain (prog :: args) readF destPrev
      = { out := ["Usage: " ++ prog ++ " <input.spv> <output.inl>"],
          exitCode := 1, dest := destPrev } := by
  simp [convertMain, h]

/-- Witness for C4 with zero positional arguments and a pre-existing
destination file, which stays untouched. -/
theorem claim_c4_witness :
    (([] : List String).length ≠ 2)
      ∧ convertMain ["convert_spv.py"] (fun _ => some []) (some "old")
          = { out := ["Usage: " ++ "convert_spv.py" ++ " <input.spv> <output.inl>"],
              exitCode := 1, dest := some "old" } :=
  ⟨by decide, claim_c4_usage_error "convert_spv.py" [] (fun _ => some []) (some "old")
    (by decide)⟩

/-- C5: an empty input byte sequence produces an empty output file. -/
theorem claim_c5_empty_input : convert_spv_to_inl [] = "" := rfl

/-- C6: the single byte 0x00 produces exactly the 11-character string of a
newline, four spaces and the token `0x00, `. -/
theorem claim_c6_single_zero_byte :
    convert_spv_to_inl [0] = "\n    0x00, " ∧ (convert_spv_to_inl [0]).length = 11 := by
  constructor
  · decide
  · decide

/-- C7: on a successful conversion the program prints exactly the
confirmation line naming both paths and exits with status 0. -/
theorem claim_c7_success_message (prog spv inl : String)
    (readF : String → Option (List Nat)) (destPrev : Option String) (data : List Nat)
    (h : readF spv = some data) :
    convertMain [prog, spv, inl] readF destPrev
      = { out := ["Converted " ++ spv ++ " to " ++ inl], exitCode := 0,
          dest := some (convert_spv_to_inl data) } := by
  simp [convertMain, h]

/-- Witness for C7 on a two-byte file. -/
theorem claim_c7_witness :
    ((fun _ : String => some [0, (255 : Nat)]) "shader.spv" = some [0, 255])
      ∧ convertMain ["convert_spv.py", "shader.spv", "shader.inl"]
            (fun _ => some [0, 255]) none
          = { out := ["Converted " ++ "shader.spv" ++ " to " ++ "shader.inl"],
              exitCode := 0, dest := some (convert_spv_to_inl [0, 255]) } :=
  ⟨rfl, claim_c7_success_message "convert_spv.py" "shader.spv" "shader.inl"
    (fun _ => some [0, 255]) none [0, 255] rfl⟩

/-- C8: the destination content is a function of the input byte sequence
alone — two runs whose source files hold the same bytes write byte-for-byte
identical content, whatever the paths, the rest of the filesystem or the
prior destination content. -/
theorem claim_c8_determinism (p1 s1 o1 p2 s2 o2 : String)
    (f1 f2 : String → Option (List Nat)) (d1 d2 : Option String) (data : List Nat)
    (h1 : f1 s1 = some data) (h2 : f2 s2 = some data) :
    (convertMain [p1, s1, o1] f1 d1).dest = (convertMain [p2, s2, o2] f2 d2).dest
      ∧ (convertMain [p1, s1, o1] f1 d1).dest = some (convert_spv_to_inl data) := by
  simp [convertMain, h1, h2]

/-- Witness for C8: two runs with different paths and different ambient
state but identical source bytes. -/
theorem claim_c8_witness :
    ((fun _ : String => some [(7 : Nat)]) "a.spv" = some [7])
      ∧ ((fun _ : String => some [(7 : Nat)]) "b.spv" = some [7])
      ∧ ((convertMain ["p", "a.spv", "a.inl"] (fun _ => some [7]) none).dest
            = (convertMain ["q", "b.spv", "b.inl"] (fun _ => some [7]) (some "junk")).dest
          ∧ (convertMain ["p", "a.spv", "a.inl"] (fun _ => some [7]) none).dest
              = some (convert_spv_to_inl [7])) :=
  ⟨rfl, rfl, claim_c8_determinism "p" "a.spv" "a.inl" "q" "b.spv" "b.inl"
    (fun _ => some [7]) (fun _ => some [7]) none (some "junk") [7] rfl rfl⟩

/-- C9: the destination file is truncated on every successful run: the final
content is the rendered text whatever the destination held before, so the
prior content is discarded and never influences the result. -/
theorem claim_c9_truncate (prog spv inl : String)
    (readF : String → Option (List Nat)) (prev prev' : Option String) (data : List Nat)
    (h : readF spv = some data) :
    (convertMain [prog, spv, inl] readF prev).dest = some (convert_spv_to_inl data)
      ∧ (convertMain [prog, spv, inl] readF prev).dest
          = (convertMain [prog, spv, inl] readF prev').dest := by
  simp [convertMain, h]

/-- Witness for C9: a run over a destination holding stale text and a run
over a missing destination end with the same content. -/
theorem claim_c9_witness :
    ((fun _ : String => some [(1 : Nat)]) "s.spv" = some [1])
      ∧ ((convertMain ["p", "s.spv", "d.inl"] (fun _ => some [1]) (some "stale")).dest
            = some (convert_spv_to_inl [1])
          ∧ (convertMain ["p", "s.spv", "d.inl"] (fun _ => some [1]) (some "stale")).dest
              = (convertMain ["p", "s.spv", "d.inl"] (fun _ => some [1]) none).dest) :=
  ⟨rfl, claim_c9_truncate "p" "s.spv" "d.inl" (fun _ => some [1]) (some "stale") none [1] rfl⟩

/-- C10: when reading the source file fails, the destination file is never
opened or modified — its content after the run is whatever it was before,
because the source is fully read before the destination is opened. -/
theorem claim_c10_read_failure (prog spv inl : String)
    (readF : String → Option (List Nat)) (prev : Option String)
    (h : readF spv = none) :
    (convertMain [prog, spv, inl] readF prev).dest = prev
      ∧ (convertMain [prog, spv, inl] readF prev).exitCode = 1 := by
  simp [convertMain, h]

/-- Witness for C10: a missing source file leaves the pre-existing
destination content in place. -/
theorem claim_c10_witness :
    ((fun _ : String => (none : Option (List Nat))) "missing.spv" = none)
      ∧ ((convertMain ["p", "missing.spv", "d.inl"] (fun _ => none) (some "keep")).dest
            = some "keep"
          ∧ (convertMain ["p", "missing.spv", "d.inl"] (fun _ => none) (some "keep")).exitCode
              = 1) :=
  ⟨rfl, claim_c10_read_failure "p" "missing.spv" "d.inl" (fun _ => none) (some "keep") rfl⟩

end ConvertSpv
